import Mathlib

/-!
Verification of the calendar day-summary aggregator
(`src/calendar/day-summary/day-summary.py`) against its specification.

Shallow embedding conventions:
* An instant is a number of minutes since an epoch, in UTC (`Int`).
* A timezone is a fixed offset from UTC in minutes (`Int`); UTC is `0`.
  The feed attaches its own offset to each component's start instant
  (`beginOffset`), so `event.begin.date()` is the calendar day of
  `beginUtc + beginOffset`, while `event.begin.to(tz)` shifts by `tz`.
* A calendar day is its day index (`Int`): minutes divided by 1440,
  rounding toward negative infinity, which matches equality of Python
  `date` objects.
* Python `None`-able strings are `Option String`; Python string
  truthiness (`if s:`) is `s ≠ ""` on the `some` case.
* The third-party feed parser (`ics.Calendar`) is external to the
  repository: a source carries the component list that parsing its
  fetched text would yield, with `none` standing for a parse exception.
-/

namespace DaySummary

/-- Minutes per day. -/
def minutesPerDay : Int := 1440

/-- Calendar-day index of an instant given in local minutes
(floor division, so instants before the epoch work too). -/
def dayOf (localMinutes : Int) : Int :=
  localMinutes.fdiv minutesPerDay

/-- One parsed feed component, as the `ics` library hands it to
`parse_events`: a start instant (UTC minutes plus the feed's own
offset), the format-level all-day flag, and the optional text fields. -/
structure VEvent where
  beginUtc : Int
  beginOffset : Int
  all_day : Bool
  name : Option String
  description : Option String
  location : Option String
deriving DecidableEq, Repr

/-- `event.begin.date()`: the calendar day of the start instant in the
feed's own timezone, with no conversion to the resolved timezone. -/
def beginDate (e : VEvent) : Int :=
  dayOf (e.beginUtc + e.beginOffset)

/-- `event.begin.to(tz).date()`: the calendar day of the start instant
after conversion to the resolved timezone offset `tz`. -/
def beginDateTo (e : VEvent) (tz : Int) : Int :=
  dayOf (e.beginUtc + tz)

/-- Zero-padded two-digit rendering, for numbers below 100 — the
domains `strftime` meets for `%H`, `%M` and `%d`. -/
def pad2 (n : Nat) : String :=
  String.mk [Nat.digitChar (n / 10), Nat.digitChar (n % 10)]

/-- `event.begin.to(tz).strftime('%H:%M')`: hour and minute of the
timezone-converted instant, zero-padded 24-hour form. -/
def timeHHMM (e : VEvent) (tz : Int) : String :=
  let lm := (e.beginUtc + tz).emod minutesPerDay
  pad2 (lm.toNat / 60) ++ ":" ++ pad2 (lm.toNat % 60)

/-- Remove leading and trailing whitespace from a character list. -/
def stripChars (l : List Char) : List Char :=
  ((l.dropWhile Char.isWhitespace).reverse.dropWhile Char.isWhitespace).reverse

/-- Python `str.strip()`: the string with surrounding whitespace
removed. -/
def pyStrip (s : String) : String :=
  String.mk (stripChars s.data)

/-- `event.name.strip() if event.name else "No Title"`: Python
truthiness means the placeholder is used only when the name is absent
(`None`) or the empty string; a whitespace-only name is stripped. -/
def pyName : Option String → String
  | none => "No Title"
  | some s => if s = "" then "No Title" else pyStrip s

/-- `x.strip() if x and x.strip() else None`, the treatment of the
optional `description` and `location` fields in `parse_events`. -/
def pyOptField : Option String → Option String
  | none => none
  | some s => if s ≠ "" && pyStrip s ≠ "" then some (pyStrip s) else none

/-- A normalized event record, the dictionaries `parse_events` builds.
`time` is `some _` exactly when the Python dict has a `'time'` key
(timed events); all-day tasks have `time = none`. -/
structure EventRecord where
  time : Option String
  name : String
  description : Option String
  location : Option String
deriving DecidableEq, Repr

/-- The dictionary appended to `timed_events` for a timed component. -/
def mkTimed (tz : Int) (e : VEvent) : EventRecord :=
  { time := some (timeHHMM e tz)
    name := pyName e.name
    description := pyOptField e.description
    location := pyOptField e.location }

/-- The dictionary appended to `all_day_tasks` for an all-day component. -/
def mkAllDay (e : VEvent) : EventRecord :=
  { time := none
    name := pyName e.name
    description := pyOptField e.description
    location := pyOptField e.location }

/-- The loop body of `parse_events` over the component list: skip
components whose native begin date differs from the target day, then
classify by the all-day flag. -/
def parseLoop (events : List VEvent) (target_date : Int) (tz : Int) :
    List EventRecord × List EventRecord :=
  match events with
  | [] => ([], [])
  | e :: rest =>
    let r := parseLoop rest target_date tz
    if beginDate e ≠ target_date then r
    else if e.all_day then (r.1, mkAllDay e :: r.2)
    else (mkTimed tz e :: r.1, r.2)

/-- `parse_events(ics_content, target_date, tz)`: a parse exception
(`none`) yields two empty lists; otherwise run the loop. -/
def parse_events (cal : Option (List VEvent)) (target_date : Int) (tz : Int) :
    List EventRecord × List EventRecord :=
  match cal with
  | none => ([], [])
  | some events => parseLoop events target_date tz

/-- The unchecked-checkbox glyph constant. -/
def EMPTY_CHECKBOX : String := "☐"

/-- Python truthiness of an optional string, as used by
`event.get('description')` and `event.get('location')` guards. -/
def truthy : Option String → Bool
  | none => false
  | some s => s ≠ ""

/-- The `first_line` of `format_event`: checkbox, then either
`HH:MM - Name` for a timed event or just `Name` for an all-day task. -/
def firstLine (event : EventRecord) : String :=
  match event.time with
  | some t => "  " ++ EMPTY_CHECKBOX ++ " " ++ t ++ " - " ++ event.name
  | none => "  " ++ EMPTY_CHECKBOX ++ " " ++ event.name

/-- The `lines` list built by `format_event`, before joining with
newlines: the checkbox line, then the optional description and
location lines, each guarded by its display flag and truthiness. -/
def format_event_lines (event : EventRecord)
    ( show_description show_location : Bool) : List String :=
  [firstLine event]
    ++ (if show_description && truthy event.description then
          ["    Description: " ++ event.description.getD ""] else [])
    ++ (if show_location && truthy event.location then
          ["    Location: " ++ event.location.getD ""] else [])

/-- `format_event`: the lines joined with newline characters. -/
def format_event (event : EventRecord)
    ( show_description show_location : Bool) : String :=
  String.intercalate "\n" (format_event_lines event show_description show_location)

/-- A calendar date as Python's `datetime.date` holds it
(year 1–9999, month 1–12, day 1–31). -/
structure Date where
  year : Nat
  month : Nat
  day : Nat
deriving DecidableEq, Repr

/-- The twelve English month names `strftime('%B')` produces. -/
def monthNames : List String :=
  ["January", "February", "March", "April", "May", "June",
   "July", "August", "September", "October", "November", "December"]

/-- `%B` for a month number 1–12. -/
def monthName (m : Nat) : String :=
  monthNames.getD (m - 1) ""

/-- Zero-padded four-digit rendering, as `strftime('%Y')` renders
years (Python documents `%Y` as `0001`, …, `9999`, and `datetime`
years lie in 1–9999). -/
def pad4 (n : Nat) : String :=
  String.mk [Nat.digitChar (n / 1000), Nat.digitChar (n / 100 % 10),
             Nat.digitChar (n / 10 % 10), Nat.digitChar (n % 10)]

/-- `target_date.strftime('%B %d, %Y')`. -/
def strftimeBDY (d : Date) : String :=
  monthName d.month ++ " " ++ pad2 d.day ++ ", " ++ pad4 d.year

/-- The header title line, `f"Agenda for {formatted_date}"`. -/
def headerTitle (d : Date) : String :=
  "Agenda for " ++ strftimeBDY d

/-- `format_header`: title, an `=` underline of the title's length,
and a trailing newline. -/
def format_header (target_date : Date) : String :=
  let header_title := headerTitle target_date
  let header_underline := String.mk (List.replicate header_title.length '=')
  header_title ++ "\n" ++ header_underline ++ "\n"

/-- Day index of a civil date (days since 1970-01-01), the standard
civil-calendar conversion; bridges the `Date` used for formatting to
the day index compared inside `parse_events`. -/
def daysFromCivil (dt : Date) : Int :=
  let y : Int := if dt.month ≤ 2 then (dt.year : Int) - 1 else (dt.year : Int)
  let era : Int := y.fdiv 400
  let yoe : Int := y - era * 400
  let mp : Int := ((dt.month : Int) + 9) % 12
  let doy : Int := (153 * mp + 2).fdiv 5 + (dt.day : Int) - 1
  let doe : Int := yoe * 365 + yoe.fdiv 4 - yoe.fdiv 100 + doy
  era * 146097 + doe - 719468

/-- One configured calendar source together with the outcome of its
external collaborators for this run: `fetch` is `fetch_ics`'s result
(`none` on a request error), and `events` is what `ics.Calendar`
yields on the fetched text (`none` standing for a parse exception). -/
structure Source where
  name : Option String
  url : Option String
  show_description : Option Bool
  show_location : Option Bool
  fetch : Option String
  events : Option (List VEvent)
deriving DecidableEq

/-- `cal.get('show_description', False)`. -/
def resolvedShowDescription (s : Source) : Bool :=
  s.show_description.getD false

/-- `cal.get('show_location', False)`. -/
def resolvedShowLocation (s : Source) : Bool :=
  s.show_location.getD false

/-- Sort key of a timed event, `lambda x: x['time']`. -/
def timeKey (e : EventRecord) : String :=
  e.time.getD ""

/-- `sorted(timed_events, key=lambda x: x['time'])`. -/
def sortTimed (l : List EventRecord) : List EventRecord :=
  l.mergeSort (fun a b => timeKey a ≤ timeKey b)

/-- `sorted(all_day_tasks, key=lambda x: x['name'])`. -/
def sortTasks (l : List EventRecord) : List EventRecord :=
  l.mergeSort (fun a b => a.name ≤ b.name)

/-- The lines one iteration of the main loop appends to
`output_lines` for source `s` (empty when the source is skipped for a
missing field, a failed or empty fetch, or no matching items). -/
def sourceBlock (s : Source) (target_date : Int) (tz : Int) : List String :=
  match s.name, s.url with
  | some name, some url =>
    if name = "" ∨ url = "" then []
    else
      match s.fetch with
      | none => []
      | some ics_content =>
        if ics_content = "" then []
        else
          let p := parse_events s.events target_date tz
          if p.1 = [] ∧ p.2 = [] then []
          else
            [name ++ ":", String.mk (List.replicate name.length '-')]
              ++ (sortTimed p.1).map
                  (fun e => format_event e (resolvedShowDescription s) (resolvedShowLocation s))
              ++ (if p.2 ≠ [] ∧ p.1 ≠ [] then [""] else [])
              ++ (sortTasks p.2).map
                  (fun e => format_event e (resolvedShowDescription s) (resolvedShowLocation s))
              ++ [""]
  | _, _ => []

/-- `output_lines` after the main loop: the header and a blank line,
then each source's block in configuration order. -/
def buildOutput (header : String) (calendars : List Source)
    (target_date : Int) (tz : Int) : List String :=
  [header, ""] ++ calendars.flatMap (fun s => sourceBlock s target_date tz)

/-- The lines `main` finally prints: `output_lines` when non-empty,
otherwise the single no-events message. -/
def mainOutput (target : Date) (calendars : List Source) (tz : Int) : List String :=
  let output_lines := buildOutput (format_header target) calendars (daysFromCivil target) tz
  if output_lines = [] then
    ["No events or tasks found for " ++ strftimeBDY target ++ "."]
  else output_lines

/-- The timezone-determination step of `main`: a configured, truthy
timezone name must resolve through `ZoneInfo` (abstracted as the
`zoneinfo` lookup) or the run exits; otherwise local detection
(`get_localzone`, abstracted as `local_tz`) is tried, falling back to
UTC (offset `0`) when it fails. -/
def resolve_timezone (cfg_tz : Option String)
    (zoneinfo : String → Option Int) (local_tz : Option Int) :
    Except String Int :=
  match cfg_tz with
  | some s =>
    if s ≠ "" then
      match zoneinfo s with
      | some tz => Except.ok tz
      | none => Except.error ("Invalid timezone " ++ s ++ " in config file")
    else
      match local_tz with
      | some t => Except.ok t
      | none => Except.ok 0
  | none =>
    match local_tz with
    | some t => Except.ok t
    | none => Except.ok 0

/-- The parsed configuration document. -/
structure Config where
  timezone : Option String
  calendars : List Source

/-- `main` after configuration and date parsing: resolve the
timezone (fatal on an invalid configured name), reject an empty
calendar list, and otherwise print the assembled output. -/
def run (config : Config) (zoneinfo : String → Option Int)
    (local_tz : Option Int) (target : Date) : Except String (List String) :=
  match resolve_timezone config.timezone zoneinfo local_tz with
  | Except.error e => Except.error e
  | Except.ok tz =>
    if config.calendars = [] then
      Except.error "No calendars found in the configuration."
    else
      Except.ok (mainOutput target config.calendars tz)

/-- Modelled from the spec: the "associated date" of §4.2 — for timed
items the calendar date of the start instant converted into the
resolved timezone, for all-day items the component's native date.
(The source computes no such quantity; its filter uses
`event.begin.date()` unconverted, so this definition exists to compare
the spec's words against the code.) -/
def specAssociatedDate (e : VEvent) (tz : Int) : Int :=
  if e.all_day then beginDate e else beginDateTo e tz

/-- `p` is a prefix of `s`, character-wise; the notion of "a rendered
line begins with …" used below. -/
def strStartsWith (s p : String) : Bool :=
  p.data.isPrefixOf s.data

/-- Decimal value of a non-empty, all-digit character list. -/
def natOfDigits (l : List Char) : Option Nat :=
  if l ≠ [] ∧ l.all (·.isDigit) then
    some (l.foldl (fun a c => a * 10 + (c.toNat - 48)) 0)
  else none

/-- Month number 1–12 of an English month name. -/
def monthIndex (s : String) : Option Nat :=
  match monthNames.findIdx? (· == s) with
  | some i => some (i + 1)
  | none => none

/-- Parse `month`, `day` and `year` back out of a rendered header
title `Agenda for <Month DD, YYYY>`. -/
def parseTitle (l : List Char) : Option (Nat × Nat × Nat) :=
  if "Agenda for ".data.isPrefixOf l then
    match monthIndex (String.mk ((l.drop 11).takeWhile (· ≠ ' '))),
      natOfDigits ((((l.drop 11).dropWhile (· ≠ ' ')).drop 1).takeWhile (· ≠ ',')),
      natOfDigits (((((l.drop 11).dropWhile (· ≠ ' ')).drop 1).dropWhile (· ≠ ',')).drop 2) with
    | some m, some d, some y => some (m, d, y)
    | _, _, _ => none
  else none

/-- Re-parse of a header title string into a `Date`. -/
def parseHeaderTitle (s : String) : Option Date :=
  match parseTitle s.data with
  | some (m, d, y) => some ⟨y, m, d⟩
  | none => none

/-! ## Helper lemmas -/

theorem isPrefixOf_append_false {p x : List Char} (r : List Char)
    (hpx : p.isPrefixOf x = false) (hxp : x.isPrefixOf p = false) :
    p.isPrefixOf (x ++ r) = false := by
  cases hb : p.isPrefixOf (x ++ r) with
  | false => rfl
  | true =>
    exfalso
    have h1 : p <+: x ++ r := List.isPrefixOf_iff_prefix.mp hb
    have h2 : x <+: x ++ r := List.prefix_append x r
    have h3 := List.prefix_or_prefix_of_prefix h1 h2
    cases h3 with
    | inl h =>
      have := List.isPrefixOf_iff_prefix.mpr h
      rw [hpx] at this
      cases this
    | inr h =>
      have := List.isPrefixOf_iff_prefix.mpr h
      rw [hxp] at this
      cases this

theorem firstLine_shape (e : EventRecord) :
    ∃ r, (firstLine e).data = ("  ".data ++ EMPTY_CHECKBOX.data) ++ r := by
  cases h : e.time with
  | none =>
    refine ⟨" ".data ++ e.name.data, ?_⟩
    simp [firstLine, h, List.append_assoc]
  | some t =>
    refine ⟨" ".data ++ (t.data ++ (" - ".data ++ e.name.data)), ?_⟩
    simp [firstLine, h, List.append_assoc]

theorem firstLine_not_desc (e : EventRecord) :
    strStartsWith (firstLine e) "    Description:" = false := by
  obtain ⟨r, hr⟩ := firstLine_shape e
  rw [strStartsWith, hr]
  exact isPrefixOf_append_false r (by decide) (by decide)

theorem firstLine_not_loc (e : EventRecord) :
    strStartsWith (firstLine e) "    Location:" = false := by
  obtain ⟨r, hr⟩ := firstLine_shape e
  rw [strStartsWith, hr]
  exact isPrefixOf_append_false r (by decide) (by decide)

theorem locLine_not_desc (d : String) :
    strStartsWith ("    Location: " ++ d) "    Description:" = false := by
  rw [strStartsWith, String.data_append]
  exact isPrefixOf_append_false _ (by decide) (by decide)

theorem descLine_not_loc (d : String) :
    strStartsWith ("    Description: " ++ d) "    Location:" = false := by
  rw [strStartsWith, String.data_append]
  exact isPrefixOf_append_false _ (by decide) (by decide)

theorem mem_format_event_lines {l : String} {e : EventRecord} {sd sl : Bool}
    (h : l ∈ format_event_lines e sd sl) :
    l = firstLine e ∨
      (sd = true ∧ truthy e.description = true ∧
        l = "    Description: " ++ e.description.getD "") ∨
      (sl = true ∧ truthy e.location = true ∧
        l = "    Location: " ++ e.location.getD "") := by
  simp only [format_event_lines, List.mem_append, List.mem_singleton] at h
  rcases h with (h | h) | h
  · exact Or.inl h
  · by_cases hd : (sd && truthy e.description) = true
    · rw [if_pos hd, List.mem_singleton] at h
      obtain ⟨h1, h2⟩ := Bool.and_eq_true _ _ |>.mp hd
      exact Or.inr (Or.inl ⟨h1, h2, h⟩)
    · rw [if_neg hd] at h
      cases h
  · by_cases hl : (sl && truthy e.location) = true
    · rw [if_pos hl, List.mem_singleton] at h
      obtain ⟨h1, h2⟩ := Bool.and_eq_true _ _ |>.mp hl
      exact Or.inr (Or.inr ⟨h1, h2, h⟩)
    · rw [if_neg hl] at h
      cases h

theorem no_desc_line_of_false (e : EventRecord) (b : Bool) :
    ∀ l ∈ format_event_lines e false b, strStartsWith l "    Description:" = false := by
  intro l hl
  rcases mem_format_event_lines hl with h | ⟨hsd, _, _⟩ | ⟨_, _, h⟩
  · rw [h]; exact firstLine_not_desc e
  · cases hsd
  · rw [h]; exact locLine_not_desc _

theorem no_loc_line_of_false (e : EventRecord) (b : Bool) :
    ∀ l ∈ format_event_lines e b false, strStartsWith l "    Location:" = false := by
  intro l hl
  rcases mem_format_event_lines hl with h | ⟨_, _, h⟩ | ⟨hsl, _, _⟩
  · rw [h]; exact firstLine_not_loc e
  · rw [h]; exact descLine_not_loc _
  · cases hsl

theorem parseLoop_eq (evs : List VEvent) (target_date tz : Int) :
    parseLoop evs target_date tz =
      ((evs.filter (fun e => !e.all_day && beginDate e == target_date)).map (mkTimed tz),
       (evs.filter (fun e => e.all_day && beginDate e == target_date)).map mkAllDay) := by
  induction evs with
  | nil => rfl
  | cons e rest ih =>
    by_cases h : beginDate e = target_date
    · by_cases ha : e.all_day = true
      · simp [parseLoop, h, ha, List.filter_cons, ih]
      · simp [parseLoop, h, ha, List.filter_cons, ih]
    · simp [parseLoop, h, List.filter_cons, ih]

theorem sortTimed_pairwise (l : List EventRecord) :
    (sortTimed l).Pairwise (fun a b => timeKey a ≤ timeKey b) := by
  have h := @List.sorted_mergeSort EventRecord
      (fun a b => decide (timeKey a ≤ timeKey b))
      (fun a b c hab hbc => by
        simp only [decide_eq_true_eq] at *
        exact le_trans hab hbc)
      (fun a b => by
        simp only [Bool.or_eq_true, decide_eq_true_eq]
        exact le_total _ _)
      l
  exact h.imp (fun hab => of_decide_eq_true hab)

theorem sortTasks_pairwise (l : List EventRecord) :
    (sortTasks l).Pairwise (fun a b => a.name ≤ b.name) := by
  have h := @List.sorted_mergeSort EventRecord
      (fun a b => decide (a.name ≤ b.name))
      (fun a b c hab hbc => by
        simp only [decide_eq_true_eq] at *
        exact le_trans hab hbc)
      (fun a b => by
        simp only [Bool.or_eq_true, decide_eq_true_eq]
        exact le_total _ _)
      l
  exact h.imp (fun hab => of_decide_eq_true hab)

theorem sourceBlock_nil_of_fail (b : Source) (target_date tz : Int)
    (hfail : b.name.getD "" = "" ∨ b.url.getD "" = "" ∨
      b.fetch = none ∨ b.events = none) :
    sourceBlock b target_date tz = [] := by
  cases hn : b.name with
  | none => simp [sourceBlock, hn]
  | some n =>
    cases hu : b.url with
    | none => simp [sourceBlock, hn, hu]
    | some u =>
      rcases hfail with h | h | h | h
      · rw [hn] at h
        simp only [Option.getD_some] at h
        simp [sourceBlock, hn, hu, h]
      · rw [hu] at h
        simp only [Option.getD_some] at h
        simp [sourceBlock, hn, hu, h]
      · cases hf : b.fetch with
        | none => simp [sourceBlock, hn, hu, hf]
        | some c => rw [hf] at h; cases h
      · cases hf : b.fetch with
        | none => simp [sourceBlock, hn, hu, hf]
        | some c =>
          by_cases hc : c = ""
          · simp [sourceBlock, hn, hu, hf, hc]
          · simp [sourceBlock, hn, hu, hf, hc, parse_events, h]

theorem digitChar_isDigit (k : Nat) (h : k < 10) :
    (Nat.digitChar k).isDigit = true := by
  interval_cases k <;> decide

theorem digitChar_toNat (k : Nat) (h : k < 10) :
    (Nat.digitChar k).toNat = 48 + k := by
  interval_cases k <;> decide

theorem pad2_all_digits (n : Nat) (h : n < 100) :
    (pad2 n).data.all (fun c => c.isDigit) = true := by
  have k1 : n / 10 < 10 := by omega
  have k2 : n % 10 < 10 := by omega
  simp [pad2, digitChar_isDigit _ k1, digitChar_isDigit _ k2]

theorem natOfDigits_pad2 (n : Nat) (h : n < 100) :
    natOfDigits (pad2 n).data = some n := by
  have k1 : n / 10 < 10 := by omega
  have k2 : n % 10 < 10 := by omega
  rw [natOfDigits, if_pos ⟨by simp [pad2], pad2_all_digits n h⟩]
  simp only [pad2, List.foldl_cons, List.foldl_nil,
    digitChar_toNat _ k1, digitChar_toNat _ k2]
  congr 1
  omega

theorem pad4_all_digits (n : Nat) (h : n ≤ 9999) :
    (pad4 n).data.all (fun c => c.isDigit) = true := by
  have k1 : n / 1000 < 10 := by omega
  have k2 : n / 100 % 10 < 10 := by omega
  have k3 : n / 10 % 10 < 10 := by omega
  have k4 : n % 10 < 10 := by omega
  simp [pad4, digitChar_isDigit _ k1, digitChar_isDigit _ k2,
    digitChar_isDigit _ k3, digitChar_isDigit _ k4]

theorem natOfDigits_pad4 (n : Nat) (h : n ≤ 9999) :
    natOfDigits (pad4 n).data = some n := by
  have k1 : n / 1000 < 10 := by omega
  have k2 : n / 100 % 10 < 10 := by omega
  have k3 : n / 10 % 10 < 10 := by omega
  have k4 : n % 10 < 10 := by omega
  rw [natOfDigits, if_pos ⟨by simp [pad4], pad4_all_digits n h⟩]
  simp only [pad4, List.foldl_cons, List.foldl_nil,
    digitChar_toNat _ k1, digitChar_toNat _ k2,
    digitChar_toNat _ k3, digitChar_toNat _ k4]
  congr 1
  omega

theorem all_ne_of_digits {l : List Char} (h : l.all (fun c => c.isDigit) = true)
    {c : Char} (hc : c.isDigit = false) :
    l.all (fun x => decide (x ≠ c)) = true := by
  simp only [List.all_eq_true, decide_eq_true_eq] at h ⊢
  intro x hx hxc
  have hd := h x hx
  rw [hxc, hc] at hd
  cases hd

theorem takeWhile_append_all {α : Type} (p : α → Bool) (xs : List α)
    (h : xs.all p = true) (c : α) (hc : p c = false) (ys : List α) :
    (xs ++ c :: ys).takeWhile p = xs := by
  induction xs with
  | nil => simp [List.takeWhile_cons, hc]
  | cons a as ih =>
    simp only [List.all_cons, Bool.and_eq_true] at h
    simp [List.takeWhile_cons, h.1, ih h.2]

theorem dropWhile_append_all {α : Type} (p : α → Bool) (xs : List α)
    (h : xs.all p = true) (c : α) (hc : p c = false) (ys : List α) :
    (xs ++ c :: ys).dropWhile p = c :: ys := by
  induction xs with
  | nil => simp [List.dropWhile_cons, hc]
  | cons a as ih =>
    simp only [List.all_cons, Bool.and_eq_true] at h
    simp [List.dropWhile_cons, h.1, ih h.2]

theorem month_facts (m : Nat) (h1 : 1 ≤ m) (h2 : m ≤ 12) :
    (monthName m).data.all (fun c => decide (c ≠ ' ')) = true ∧
    monthIndex (monthName m) = some m := by
  interval_cases m <;> exact ⟨by decide, by decide⟩

theorem parseTitle_roundtrip (m day y : Nat) (h1 : 1 ≤ m) (h2 : m ≤ 12)
    (h3 : day < 100) (h4 : y ≤ 9999) :
    parseTitle (headerTitle ⟨y, m, day⟩).data = some (m, day, y) := by
  obtain ⟨hmsp, hmidx⟩ := month_facts m h1 h2
  have hshape : (headerTitle ⟨y, m, day⟩).data =
      "Agenda for ".data ++ ((monthName m).data ++ ' ' ::
        ((pad2 day).data ++ ',' :: ' ' :: (pad4 y).data)) := by
    have d1 : (" " : String).data = [' '] := rfl
    have d2 : (", " : String).data = [',', ' '] := rfl
    simp [headerTitle, strftimeBDY, d1, d2, List.append_assoc]
  rw [hshape, parseTitle]
  rw [if_pos (List.isPrefixOf_iff_prefix.mpr (List.prefix_append _ _))]
  have hdrop : ("Agenda for ".data ++ ((monthName m).data ++ ' ' ::
      ((pad2 day).data ++ ',' :: ' ' :: (pad4 y).data))).drop 11 =
      (monthName m).data ++ ' ' ::
        ((pad2 day).data ++ ',' :: ' ' :: (pad4 y).data) := by
    rw [show (11 : Nat) = "Agenda for ".data.length from by decide, List.drop_left]
  rw [hdrop]
  rw [takeWhile_append_all _ _ hmsp ' ' (by decide) _,
    dropWhile_append_all _ _ hmsp ' ' (by decide) _]
  simp only [List.drop_succ_cons, List.drop_zero]
  have hday : (pad2 day).data.all (fun x => decide (x ≠ ',')) = true :=
    all_ne_of_digits (pad2_all_digits day h3) (by decide)
  rw [takeWhile_append_all _ _ hday ',' (by decide) _,
    dropWhile_append_all _ _ hday ',' (by decide) _]
  simp only [List.drop_succ_cons, List.drop_zero]
  have hmk : String.mk (monthName m).data = monthName m := rfl
  rw [hmk, hmidx, natOfDigits_pad2 day h3, natOfDigits_pad4 y h4]

/-! ## Claims -/

/-- C1: the claim says a timed component is retained exactly when its
start instant, converted into the resolved timezone, falls on the
target date.  The code filters on `event.begin.date()` before any
conversion, so a timed event at 23:30 UTC under resolved offset
UTC+2 is retained for the UTC day even though its timezone-converted
date is the following day: the claim is false at this input. -/
theorem C1_counterexample :
    (parse_events (some [⟨1410, 0, false, some "Evening call", none, none⟩]) 0 120).1 =
      [⟨some "01:30", "Evening call", none, none⟩] ∧
    specAssociatedDate ⟨1410, 0, false, some "Evening call", none, none⟩ 120 = 1 ∧
    (1 : Int) ≠ 0 := by
  refine ⟨by decide, by decide, by decide⟩

/-- C1 (amended): inclusion of a timed component is decided by
comparing the calendar date of its start instant in the feed's own
timezone — with no conversion to the resolved timezone — against the
target date; the resolved timezone enters only the displayed
`HH:MM` start time. -/
theorem C1_amended (evs : List VEvent) (target_date tz : Int) :
    (parse_events (some evs) target_date tz).1 =
      (evs.filter (fun e => !e.all_day && beginDate e == target_date)).map (mkTimed tz) := by
  rw [parse_events, parseLoop_eq]

/-- C6: the claim's date clause uses the spec's "associated date",
which for timed components is the timezone-converted calendar date.
A timed component whose native begin date equals the target date is
retained even when that associated date differs from the target
date, so the clause "no component whose associated date differs from
the target date appears in either list" is false at this input. -/
theorem C6_counterexample :
    (parse_events (some [⟨1470, 0, false, some "Early call", none, none⟩]) 1 (-120)).1 =
      [⟨some "22:30", "Early call", none, none⟩] ∧
    specAssociatedDate ⟨1470, 0, false, some "Early call", none, none⟩ (-120) = 0 ∧
    (0 : Int) ≠ 1 := by
  refine ⟨by decide, by decide, by decide⟩

/-- C6 (amended): every feed component whose native begin date equals
the target date is placed in exactly one of the two output lists —
the all-day list when its format-level all-day flag is set, the timed
list otherwise — and no component whose native begin date differs
from the target date appears in either list: the two lists are the
classified images of the two complementary filters. -/
theorem C6_amended (evs : List VEvent) (target_date tz : Int) :
    (parse_events (some evs) target_date tz).1 =
      (evs.filter (fun e => !e.all_day && beginDate e == target_date)).map (mkTimed tz) ∧
    (parse_events (some evs) target_date tz).2 =
      (evs.filter (fun e => e.all_day && beginDate e == target_date)).map mkAllDay := by
  rw [parse_events, parseLoop_eq]
  exact ⟨rfl, rfl⟩

/-- C2 (code bug): `output_lines` is initialized with the header and
a blank line, so it is never empty and the branch printing the single
"no events or tasks found" message is unreachable.  On a run where no
source produces a block — here one source with a fetched, parseable
feed holding no events on the target date — the program prints the
header block rather than the claimed message. -/
theorem C2_header_not_suppressed :
    (∀ header calendars target_date tz,
        2 ≤ (buildOutput header calendars target_date tz).length) ∧
    mainOutput ⟨2024, 4, 27⟩
        [⟨some "Work", some "https://example.com/cal.ics", none, none,
          some "BEGIN:VCALENDAR", some []⟩] 0 =
      [format_header ⟨2024, 4, 27⟩, ""] := by
  constructor
  · intro header calendars target_date tz
    simp [buildOutput]
  · decide

/-- C3: the claim says a blank (whitespace-only) name is replaced by
the placeholder "No Title".  The placeholder branch is guarded by
Python truthiness, so a whitespace-only name is truthy and is merely
stripped: the retained record's name is the empty string, not
"No Title". -/
theorem C3_counterexample :
    (parse_events (some [⟨0, 0, true, some "   ", none, none⟩]) 0 0).2 =
      [⟨none, "", none, none⟩] ∧ "" ≠ "No Title" :=
  ⟨by decide, by decide⟩

/-- C3 (amended): a retained component's record name is the
component's name stripped of surrounding whitespace, with the fixed
placeholder "No Title" substituted only when the name is absent or is
the empty string; a non-empty, all-whitespace name therefore becomes
the empty string rather than the placeholder. -/
theorem C3_amended :
    (∀ e tz, (mkTimed tz e).name = pyName e.name) ∧
    (∀ e, (mkAllDay e).name = pyName e.name) ∧
    pyName none = "No Title" ∧
    pyName (some "") = "No Title" ∧
    (∀ s, s ≠ "" → pyName (some s) = pyStrip s) := by
  refine ⟨fun e tz => rfl, fun e => rfl, rfl, rfl, fun s hs => ?_⟩
  simp [pyName, hs]

theorem C3_amended_witness : pyName (some " x ") = pyStrip " x " :=
  C3_amended.2.2.2.2 " x " (by decide)

/-- C4: a source whose configuration lacks a truthy name or url,
whose fetch fails, or whose feed fails to parse contributes no block,
and the assembled output equals the output with that source removed:
the run continues and the remaining sources are unaffected. -/
theorem C4_failed_source_skipped (pre post : List Source) (b : Source)
    (hfail : b.name.getD "" = "" ∨ b.url.getD "" = "" ∨
      b.fetch = none ∨ b.events = none)
    (header : String) (target_date tz : Int) :
    buildOutput header (pre ++ b :: post) target_date tz =
      buildOutput header (pre ++ post) target_date tz := by
  simp [buildOutput, List.flatMap_append, List.flatMap_cons,
    sourceBlock_nil_of_fail b target_date tz hfail]

theorem C4_witness :
    buildOutput "hdr" [⟨some "Cal", none, none, none, none, none⟩] 0 0 =
      buildOutput "hdr" [] 0 0 :=
  C4_failed_source_skipped [] [] ⟨some "Cal", none, none, none, none, none⟩
    (Or.inr (Or.inl rfl)) "hdr" 0 0

/-- C5: within a source block the timed events are rendered from
`sortTimed` of the parsed list and the all-day tasks from
`sortTasks`; the former is pairwise non-decreasing in the zero-padded
`HH:MM` start-time string and the latter pairwise non-decreasing in
the (case-sensitive, lexicographic) name. -/
theorem C5_block_order (s : Source) (target_date tz : Int) :
    ((sortTimed (parse_events s.events target_date tz).1).Pairwise
        (fun a b => timeKey a ≤ timeKey b)) ∧
    ((sortTasks (parse_events s.events target_date tz).2).Pairwise
        (fun a b => a.name ≤ b.name)) :=
  ⟨sortTimed_pairwise _, sortTasks_pairwise _⟩

/-- C7: with `show_description` false no rendered line of an event
begins with the (4-space-indented) `Description:` label, whatever
description the record holds, and symmetrically for `show_location`
and `Location:`; and every component whose description is blank
(empty once stripped) — its location arbitrary: present, blank or
absent — is stored with the description absent, so its rendered
lines contain no `Description:` label even with `show_description`
true and any `show_location` setting, and symmetrically for a
component whose location is blank. -/
theorem C7_description_location_suppression (e : EventRecord) (b b2 : Bool)
    (ev ev2 : VEvent) (ds ls : String) (tz : Int)
    (hd : ev.description = some ds) (hdb : pyStrip ds = "")
    (hl : ev2.location = some ls) (hlb : pyStrip ls = "") :
    (∀ l ∈ format_event_lines e false b,
        strStartsWith l "    Description:" = false) ∧
    (∀ l ∈ format_event_lines e b false,
        strStartsWith l "    Location:" = false) ∧
    (∀ l ∈ format_event_lines (mkAllDay ev) true b2,
        strStartsWith l "    Description:" = false) ∧
    (∀ l ∈ format_event_lines (mkTimed tz ev) true b2,
        strStartsWith l "    Description:" = false) ∧
    (∀ l ∈ format_event_lines (mkAllDay ev2) b2 true,
        strStartsWith l "    Location:" = false) ∧
    (∀ l ∈ format_event_lines (mkTimed tz ev2) b2 true,
        strStartsWith l "    Location:" = false) := by
  have hda : pyOptField ev.description = none := by
    rw [hd]
    simp [pyOptField, hdb]
  have hla : pyOptField ev2.location = none := by
    rw [hl]
    simp [pyOptField, hlb]
  refine ⟨no_desc_line_of_false e b, no_loc_line_of_false e b, ?_, ?_, ?_, ?_⟩
  · intro l hml
    rcases mem_format_event_lines hml with h | ⟨_, ht, _⟩ | ⟨_, _, h⟩
    · rw [h]
      exact firstLine_not_desc _
    · simp [mkAllDay, hda, truthy] at ht
    · rw [h]
      exact locLine_not_desc _
  · intro l hml
    rcases mem_format_event_lines hml with h | ⟨_, ht, _⟩ | ⟨_, _, h⟩
    · rw [h]
      exact firstLine_not_desc _
    · simp [mkTimed, hda, truthy] at ht
    · rw [h]
      exact locLine_not_desc _
  · intro l hml
    rcases mem_format_event_lines hml with h | ⟨_, _, h⟩ | ⟨_, ht, _⟩
    · rw [h]
      exact firstLine_not_loc _
    · rw [h]
      exact descLine_not_loc _
    · simp [mkAllDay, hla, truthy] at ht
  · intro l hml
    rcases mem_format_event_lines hml with h | ⟨_, _, h⟩ | ⟨_, ht, _⟩
    · rw [h]
      exact firstLine_not_loc _
    · rw [h]
      exact descLine_not_loc _
    · simp [mkTimed, hla, truthy] at ht

theorem C7_witness :
    strStartsWith "    Location: Office" "    Description:" = false :=
  (C7_description_location_suppression
      ⟨some "09:00", "Standup", some "D", some "L"⟩ true true
      ⟨0, 0, true, some "T", some "   ", some "Office"⟩
      ⟨0, 0, false, some "U", none, some "  "⟩ "   " "  " 0
      rfl (by decide) rfl (by decide)).2.2.1
    "    Location: Office" (by decide)

/-- C8: a configured (truthy) timezone name that the zoneinfo lookup
does not recognize makes the run fail with an error before any output
is produced; with no configured timezone and failed local detection,
resolution falls back to UTC (offset 0) and a run with a non-empty
calendar list still produces its report. -/
theorem C8_timezone_resolution (config : Config)
    (zoneinfo : String → Option Int) (local_tz : Option Int) (target : Date) :
    (∀ s, config.timezone = some s → s ≠ "" → zoneinfo s = none →
        run config zoneinfo local_tz target =
          Except.error ("Invalid timezone " ++ s ++ " in config file")) ∧
    ((config.timezone = none ∨ config.timezone = some "") → local_tz = none →
        resolve_timezone config.timezone zoneinfo local_tz = Except.ok 0 ∧
        (config.calendars ≠ [] →
          run config zoneinfo local_tz target =
            Except.ok (mainOutput target config.calendars 0))) := by
  constructor
  · intro s hs hne hz
    simp [run, resolve_timezone, hs, hne, hz]
  · intro hcfg hloc
    have hres : resolve_timezone config.timezone zoneinfo local_tz = Except.ok 0 := by
      rcases hcfg with h | h <;> simp [resolve_timezone, h, hloc]
    refine ⟨hres, fun hcal => ?_⟩
    simp [run, hres, hcal]

theorem C8_witness :
    run ⟨some "Mars/Olympus", [⟨some "A", some "u", none, none, none, none⟩]⟩
        (fun _ => none) none ⟨2024, 1, 1⟩ =
      Except.error ("Invalid timezone " ++ "Mars/Olympus" ++ " in config file") :=
  (C8_timezone_resolution _ _ _ _).1 "Mars/Olympus" rfl (by decide) rfl

/-- C9: the header consists of the title `Agenda for <Month DD, YYYY>`
followed by an underline of `=` of exactly the title's length, and
re-parsing month, day and year out of the rendered title recovers the
target date (stated for the year/month/day ranges `datetime.date`
admits). -/
theorem C9_header_roundtrip (d : Date) (h1 : 1 ≤ d.month) (h2 : d.month ≤ 12)
    (h3 : d.day < 100) (h4 : d.year ≤ 9999) :
    parseHeaderTitle (headerTitle d) = some d ∧
    format_header d = headerTitle d ++ "\n" ++
      String.mk (List.replicate (headerTitle d).length '=') ++ "\n" := by
  obtain ⟨y, m, day⟩ := d
  refine ⟨?_, rfl⟩
  rw [parseHeaderTitle, parseTitle_roundtrip m day y h1 h2 h3 h4]

theorem C9_witness :
    parseHeaderTitle (headerTitle ⟨2024, 4, 27⟩) = some ⟨2024, 4, 27⟩ :=
  (C9_header_roundtrip ⟨2024, 4, 27⟩ (by decide) (by decide) (by decide)
    (by decide)).1

end DaySummary
